import Mathlib

/-!
Verification development for the cpp-code-review static-analysis engine.

This file gives a shallow embedding, in Lean 4, of the core subsystems of the
engine as implemented in the C++ sources:

* the auto-fix engine (src/fixer/auto_fixer.cpp): FixAction application with
  backup creation, bounds validation, AddInclude idempotence, and rollback;
* the taint analyzer (src/analysis/taint_analysis.cpp): taint state, the
  source/sink/sanitizer classification tables, propagation with a recursion
  depth cap;
* the rule dispatcher (src/rules/rule_engine.cpp): failure isolation;
* the buffer overflow visitor (rule_engine.cpp, BufferOverflowVisitor);
* the memory-leak visitor (src/rules/memory_leak_rule.cpp).

Strings are modelled as lists of characters (abbreviation Str) so that all
string operations of the C++ code (std::string::find, substr, getline-based
line splitting, concatenation) are plain executable list functions.  The file
system seen by the auto-fix engine is modelled as a partial map from paths to
file contents.  Fallible operations return a Bool success flag exactly where
the C++ returns one.
-/

/-- Strings of the modelled program: std::string as a list of characters. -/
abbrev Str := List Char

/-- The file system: a partial map from paths to raw file contents (bytes). -/
abbrev FS := Str → Option Str

/-- Write (create or overwrite) a file. -/
def fsWrite (fs : FS) (p c : Str) : FS :=
  fun q => if q = p then some c else fs q

/-- Remove a file (std::filesystem::remove). -/
def fsRemove (fs : FS) (p : Str) : FS :=
  fun q => if q = p then none else fs q

/-- Does a character-list needle start the haystack (prefix test)? -/
def strStarts : Str → Str → Bool
  | [], _ => true
  | _ :: _, [] => false
  | a :: as, b :: bs => a == b && strStarts as bs

/-- First index at which the needle occurs, counting from i:
auxiliary loop for std::string::find. -/
def strFindAux (needle : Str) : Str → Nat → Option Nat
  | [], i => if strStarts needle [] then some i else none
  | hay@(_ :: rest), i =>
    if strStarts needle hay then some i else strFindAux needle rest (i + 1)

/-- std::string::find: index of the first occurrence of needle in hay. -/
def strFind (needle hay : Str) : Option Nat :=
  strFindAux needle hay 0

/-- std::string::find(needle) != npos: substring containment. -/
def strContainsSub (needle hay : Str) : Bool :=
  (strFind needle hay).isSome

/-- Line splitting with std::getline semantics: lines are the maximal
newline-free segments; a trailing newline does not produce an extra empty
line, and an empty file has no lines. -/
def splitLines : Str → List Str
  | [] => []
  | c :: rest =>
    if c = '\n' then [] :: splitLines rest
    else
      match splitLines rest with
      | [] => [[c]]
      | l :: ls => (c :: l) :: ls

/-- Serialization of lines as written back by AutoFixer::applyFix: every line,
including the last, is followed by a newline (the loop's condition
i < size - 1 || !lines.empty() is true for every iteration). -/
def serializeLines : List Str → Str
  | [] => []
  | l :: ls => l ++ '\n' :: serializeLines ls

/-- std::vector::insert(begin() + n, x) for a vector of lines. -/
def insertAt : Nat → Str → List Str → List Str
  | 0, x, ls => x :: ls
  | _ + 1, x, [] => [x]
  | n + 1, x, l :: ls => l :: insertAt n x ls

/-- Association-list lookup, modelling std::map::find. -/
def mapFind {α : Type} (k : Str) : List (Str × α) → Option α
  | [] => none
  | (k', v) :: rest => if k' = k then some v else mapFind k rest

/-- Association-list insert-or-assign, modelling std::map operator[] (maps are
kept duplicate-free, so replacing the first matching key is set semantics). -/
def mapInsert {α : Type} (k : Str) (v : α) : List (Str × α) → List (Str × α)
  | [] => [(k, v)]
  | (k', v') :: rest => if k' = k then (k, v) :: rest else (k', v') :: mapInsert k v rest

/-- std::map::erase by key (removes the key entirely). -/
def mapErase {α : Type} (k : Str) : List (Str × α) → List (Str × α)
  | [] => []
  | (k', v) :: rest => if k' = k then mapErase k rest else (k', v) :: mapErase k rest

/-- Update the mapped value when the key is present (map::find plus mutation
through the iterator); no change when absent. -/
def mapUpdate {α : Type} (k : Str) (f : α → α) : List (Str × α) → List (Str × α)
  | [] => []
  | (k', v) :: rest => if k' = k then (k', f v) :: rest else (k', v) :: mapUpdate k f rest

/-- std::set::insert for a string set kept as a duplicate-free list. -/
def setInsert (x : Str) (s : List Str) : List Str :=
  if x ∈ s then s else x :: s

/-- std::set::erase for a string set kept as a duplicate-free list. -/
def setErase (x : Str) : List Str → List Str
  | [] => []
  | a :: rest => if a = x then setErase x rest else a :: setErase x rest

/-- Decimal rendering of a natural number (std::to_string). -/
def natToStr (n : Nat) : Str :=
  Nat.toDigits 10 n

/-- Decimal rendering of a signed integer (std::to_string on int64_t). -/
def intToStr (i : Int) : Str :=
  if i < 0 then '-' :: natToStr i.natAbs else natToStr i.natAbs

/-! ## Shared data model (report/reporter.h) -/

/-- Severity levels, in the order declared in reporter.h. -/
inductive Severity where
  | CRITICAL
  | HIGH
  | MEDIUM
  | LOW
  | SUGGESTION
deriving DecidableEq, Repr

/-- A source location (file, line, column) as resolved by clang's
SourceManager; stands for clang::SourceLocation in the visitors. -/
structure SrcLoc where
  file : Str
  line : Nat
  column : Nat
deriving DecidableEq, Repr

/-- One detected problem (struct Issue of reporter.h). -/
structure Issue where
  file_path : Str
  line : Nat
  column : Nat
  severity : Severity
  rule_id : Str
  description : Str
  suggestion : Str
  code_snippet : Str := []
deriving DecidableEq, Repr

/-! ## Auto-fix engine (src/fixer/auto_fixer.cpp, fixer/auto_fixer.h) -/

/-- Fix operation kinds (enum class FixType). -/
inductive FixType where
  | REPLACE
  | INSERT
  | DELETE
  | ADD_INCLUDE
  | REWRITE
deriving DecidableEq, Repr

/-- A single fix operation (struct FixAction).  Line/column fields are the
C++ unsigned fields; 0 in a column field means "whole line". -/
structure FixAction where
  type : FixType
  file_path : Str
  line_start : Nat
  line_end : Nat
  column_start : Nat
  column_end : Nat
  old_code : Str := []
  new_code : Str
  description : Str := []
deriving DecidableEq, Repr

/-- The private state of class AutoFixer: the backup flag and the list of
backup file paths recorded so far.  Interactive mode is not modelled (the
theorems below are about the non-interactive path, interactive_mode_ ==
false, for which askUserConfirmation is never consulted). -/
structure AutoFixer where
  create_backup : Bool
  backup_files : List Str
deriving Repr

/-- The ".backup" suffix appended to the original path by createBackup. -/
def dotBackup : Str := ".backup".data

/-- AutoFixer::createBackup: copy file_path to file_path + ".backup"
(removing any stale backup first, then overwriting) and record the backup
path; returns false (catching the copy_file exception) when the source file
does not exist. -/
def createBackup (fx : AutoFixer) (fs : FS) (file_path : Str) :
    Bool × AutoFixer × FS :=
  let backup_path := file_path ++ dotBackup
  match fs file_path with
  | none => (false, fx, fs)
  | some content =>
    (true,
     { fx with backup_files := fx.backup_files ++ [backup_path] },
     fsWrite fs backup_path content)

/-- Is a line neither blank nor a comment/preprocessor line?  Mirrors the
ADD_INCLUDE insertion-point scan: skip lines whose first non-space/tab
character is missing or is one of / * #. -/
def isCodeLine (l : Str) : Bool :=
  match l.dropWhile (fun c => c == ' ' || c == '\t') with
  | [] => false
  | c :: _ => !(c == '/' || c == '*' || c == '#')

/-- Index of the first non-blank, non-comment line, scanning from index i. -/
def findCodePos : List Str → Nat → Option Nat
  | [], _ => none
  | l :: rest, i => if isCodeLine l then some i else findCodePos rest (i + 1)

/-- The ADD_INCLUDE transformation on the line vector: no-op when some line
already contains the literal include text, otherwise insert before the first
non-blank non-comment line (at index 0 when every line is blank/comment,
since insert_pos is initialized to 0 and never set). -/
def addIncludeLines (lines : List Str) (code : Str) : List Str :=
  if lines.any (fun l => strContainsSub code l) then lines
  else insertAt ((findCodePos lines 0).getD 0) code lines

/-- Serialize the edited lines and write them to the target file; models
steps 6-7 of applyFix (the write-back).  The FS model has no I/O faults, so
the write always succeeds and the write-failure restoration branch of the
C++ is unreachable here. -/
def finishWrite (fx : AutoFixer) (fs : FS) (path : Str) (lines : List Str) :
    Bool × AutoFixer × FS :=
  (true, fx, fsWrite fs path (serializeLines lines))

/-- std::string::replace(start_pos, length, new_code) on one line. -/
def lineReplace (line : Str) (start_pos length : Nat) (new_code : Str) : Str :=
  line.take start_pos ++ new_code ++ line.drop (start_pos + length)

/-- The switch statement of AutoFixer::applyFix: apply the edit by kind to
the line vector, with the hard bounds preconditions of each kind; a
violation returns false with the file untouched, otherwise the edited lines
are serialized and written back. -/
def applySwitch (fx : AutoFixer) (fs : FS) (fix : FixAction)
    (lines : List Str) : Bool × AutoFixer × FS :=
  match fix.type with
  | FixType.REPLACE =>
    if fix.line_start = 0 ∨ fix.line_start > lines.length then (false, fx, fs)
    else
      let line := lines.getD (fix.line_start - 1) []
      if fix.column_start > 0 ∧ fix.column_end > 0 then
        if fix.column_start > line.length + 1 then (false, fx, fs)
        else if fix.column_end < fix.column_start then (false, fx, fs)
        else
          let start_pos := fix.column_start - 1
          let len0 := fix.column_end - fix.column_start
          let len :=
            if start_pos + len0 > line.length then line.length - start_pos
            else len0
          finishWrite fx fs fix.file_path
            (lines.set (fix.line_start - 1) (lineReplace line start_pos len fix.new_code))
      else
        finishWrite fx fs fix.file_path (lines.set (fix.line_start - 1) fix.new_code)
  | FixType.INSERT =>
    if fix.line_start = 0 ∨ fix.line_start > lines.length + 1 then (false, fx, fs)
    else finishWrite fx fs fix.file_path (insertAt (fix.line_start - 1) fix.new_code lines)
  | FixType.DELETE =>
    if fix.line_start = 0 ∨ fix.line_end = 0 ∨
        fix.line_start > lines.length ∨ fix.line_end > lines.length then
      (false, fx, fs)
    else if fix.line_end < fix.line_start then (false, fx, fs)
    else
      finishWrite fx fs fix.file_path
        (lines.take (fix.line_start - 1) ++ lines.drop fix.line_end)
  | FixType.ADD_INCLUDE =>
    finishWrite fx fs fix.file_path (addIncludeLines lines fix.new_code)
  | FixType.REWRITE =>
    finishWrite fx fs fix.file_path (splitLines fix.new_code)

/-- AutoFixer::applyFix (non-interactive path): check the target exists,
create the backup when enabled (before any validation of the edit), read the
file as lines, then run the edit switch and write back.  Returns the success
flag together with the new fixer state and file system. -/
def applyFix (fx : AutoFixer) (fs : FS) (fix : FixAction) :
    Bool × AutoFixer × FS :=
  match fs fix.file_path with
  | none => (false, fx, fs)
  | some _ =>
    let bk := if fx.create_backup then createBackup fx fs fix.file_path
              else (true, fx, fs)
    if bk.1 = false then (false, bk.2.1, bk.2.2)
    else
      applySwitch bk.2.1 bk.2.2 fix
        (splitLines ((bk.2.2 fix.file_path).getD []))

/-- The original path recovered from a backup path in AutoFixer::rollback:
substr(0, length() - 7) strips the ".backup" suffix (for a path shorter than
7 characters the size_t subtraction wraps and substr returns the whole
string; backup paths produced by createBackup always end in ".backup"). -/
def originalOfBackup (bp : Str) : Str :=
  if bp.length < 7 then bp else bp.take (bp.length - 7)

/-- The per-backup loop of AutoFixer::rollback: restore each recorded backup
over its original path and delete the backup file; a missing backup file is
recorded as a failure but processing continues. -/
def rollbackLoop : List Str → FS → Bool → Bool × FS
  | [], fs, ok => (ok, fs)
  | bp :: rest, fs, ok =>
    match fs bp with
    | none => rollbackLoop rest fs false
    | some c =>
      rollbackLoop rest (fsRemove (fsWrite fs (originalOfBackup bp) c) bp) ok

/-- AutoFixer::rollback: restore every recorded backup (an empty record list
is a successful no-op), then clear the record list. -/
def rollback (fx : AutoFixer) (fs : FS) : Bool × AutoFixer × FS :=
  if fx.backup_files = [] then (true, fx, fs)
  else
    let r := rollbackLoop fx.backup_files fs true
    (r.1, { fx with backup_files := [] }, r.2)

/-! ## Taint analyzer (src/analysis/taint_analysis.cpp, part_010 header)

The analyzer walks clang statements.  The embedding models the fragment of
the clang AST the analyzer inspects: variable references, member access,
array subscripts, pointer dereference, assignment operators, call
expressions (carrying the resolved callee name and the call site's
line/column, as produced by getFunctionName and getBeginLoc), and compound
statements.  Node children mirror clang's Stmt::children() for these kinds
(the callee reference inside a call, which the walk visits but never acts
on, is elided). -/

/-- The statement/expression tree consumed by TaintAnalyzer::propagateTaint. -/
inductive Node where
  | var (name : Str)
  | member (base : Node) (field : Str)
  | subscript (base idx : Node)
  | deref (sub : Node)
  | assign (lhs rhs : Node)
  | call (fname : Str) (args : List Node) (line column : Nat)
  | compound (stmts : List Node)

/-- Stmt::children() for the modelled node kinds. -/
def children : Node → List Node
  | Node.var _ => []
  | Node.member b _ => [b]
  | Node.subscript b i => [b, i]
  | Node.deref s => [s]
  | Node.assign l r => [l, r]
  | Node.call _ args _ _ => args
  | Node.compound ss => ss

/-- TaintAnalyzer::getVariableName: plain identifiers give their name,
member access the member name, subscripts and dereferences recurse into the
base, and calls (and anything else) give the empty string. -/
def getVariableName : Node → Str
  | Node.var n => n
  | Node.member _ f => f
  | Node.subscript b _ => getVariableName b
  | Node.deref s => getVariableName s
  | Node.call _ _ _ _ => []
  | Node.assign _ _ => []
  | Node.compound _ => []

/-- Taint kinds (enum class TaintType). -/
inductive TaintType where
  | USER_INPUT
  | NETWORK_DATA
  | FILE_DATA
  | ENVIRONMENT
  | DATABASE
  | UNKNOWN
deriving DecidableEq, Repr

/-- struct TaintSource. -/
structure TaintSource where
  variable_name : Str
  type : TaintType
  line : Nat
  column : Nat
  description : Str
deriving DecidableEq, Repr

/-- Default TaintSource value (for instance search). -/
instance : Inhabited TaintSource :=
  ⟨{ variable_name := [], type := TaintType.UNKNOWN, line := 0, column := 0,
     description := [] }⟩

/-- struct TaintSink. -/
structure TaintSink where
  function_name : Str
  tainted_args : List Nat
  line : Nat
  column : Nat
  risk_type : Str
  severity : Severity
deriving DecidableEq, Repr

/-- What reportTaintFlow records for one confirmed source-to-sink flow: the
TaintPath pushed onto taint_paths_ and the Issue (rule id
TAINT-ANALYSIS-001, location and severity of the sink, description naming
the source) handed to the reporter carry exactly this data; the rendered
message text is elided. -/
structure TaintFinding where
  source : TaintSource
  sink : TaintSink
deriving DecidableEq, Repr

/-- The mutable per-function state of TaintAnalyzer: the tainted-variable
set and the variable-to-source map. -/
structure TaintState where
  tainted_vars : List Str
  taint_sources : List (Str × TaintSource)
deriving Repr

/-- TaintSourceDB::isUserInputFunction's exact-match table. -/
def inputFuncs : List Str :=
  ["gets", "fgets", "getline", "scanf", "fscanf", "sscanf",
   "cin", "getchar", "fgetc", "read", "recv", "recvfrom",
   "std::cin", "std::getline", "getopt", "getopt_long",
   "fread", "gets_s", "fgets_s", "std::cin.getline",
   "readlink", "recvmsg", "input", "readline"].map String.data

/-- Whole-word containment at the needle's first occurrence: find the first
occurrence of the keyword and accept it only when bounded by
non-alphanumeric characters or the string's edges (later occurrences are
not examined, as in the C++ loops). -/
def wordHit (keyword hay : Str) : Bool :=
  match strFind keyword hay with
  | none => false
  | some pos =>
    let startOk := pos == 0 ||
      !(match hay.get? (pos - 1) with
        | some c => c.isAlphanum
        | none => false)
    let endOk := decide (hay.length ≤ pos + keyword.length) ||
      !(match hay.get? (pos + keyword.length) with
        | some c => c.isAlphanum
        | none => false)
    startOk && endOk

/-- TaintSourceDB::isUserInputFunction: exact table match, then whole-word
containment of one of the keywords Input/Read/Receive/Get. -/
def isUserInputFunction (f : Str) : Bool :=
  decide (f ∈ inputFuncs) ||
  (["Input", "Read", "Receive", "Get"].map String.data).any (fun k => wordHit k f)

/-- TaintSourceDB::isNetworkFunction (exact matches only). -/
def isNetworkFunction (f : Str) : Bool :=
  decide (f ∈ (["recv", "recvfrom", "recvmsg", "read", "readv",
    "SSL_read", "SSL_recv", "accept", "accept4",
    "BIO_read", "gnutls_record_recv", "mbedtls_ssl_read"].map String.data))

/-- TaintSourceDB::isFileFunction (exact matches only). -/
def isFileFunction (f : Str) : Bool :=
  decide (f ∈ (["fread", "fgets", "fgetc", "fscanf", "read",
    "readfile", "file_get_contents",
    "pread", "readv", "mmap", "std::ifstream::read"].map String.data))

/-- TaintAnalyzer::isEnvironmentSource's name test. -/
def isEnvironmentFunction (f : Str) : Bool :=
  f == ("getenv".data) || f == ("std::getenv".data)

/-- TaintSourceDB::getTaintType. -/
def getTaintType (f : Str) : TaintType :=
  if isUserInputFunction f then TaintType.USER_INPUT
  else if isNetworkFunction f then TaintType.NETWORK_DATA
  else if isFileFunction f then TaintType.FILE_DATA
  else if isEnvironmentFunction f then TaintType.ENVIRONMENT
  else TaintType.UNKNOWN

/-- TaintAnalyzer::isSanitizationFunction's vocabulary. -/
def sanitizeFuncs : List Str :=
  ["escape", "sanitize", "validate", "filter",
   "htmlspecialchars", "mysql_real_escape_string",
   "pg_escape_string", "quote", "escapeshellarg",
   "trim", "strip", "clean", "purify"].map String.data

/-- TaintAnalyzer::isSanitizationFunction: exact match against the
vocabulary, then whole-word containment of any vocabulary entry. -/
def isSanitizationFunction (f : Str) : Bool :=
  decide (f ∈ sanitizeFuncs) || sanitizeFuncs.any (fun sf => wordHit sf f)

/-- TaintSinkDB::isSQLSinkFunction's exact-match table. -/
def sqlFuncs : List Str :=
  ["mysql_query", "mysql_real_query", "PQexec", "PQexecParams",
   "sqlite3_exec", "sqlite3_prepare", "exec", "execute",
   "query", "executeQuery", "executeSql",
   "PQexecPrepared", "sqlite3_prepare_v2", "sqlite3_prepare_v3",
   "MYSQL_STMT_EXECUTE", "OCIStmtExecute"].map String.data

/-- TaintSinkDB::isSQLSinkFunction: exact table match, then whole-word
containment of a query/exec/sql keyword. -/
def isSQLSinkFunction (f : Str) : Bool :=
  decide (f ∈ sqlFuncs) ||
  (["query", "Query", "exec", "Exec", "sql", "Sql", "SQL"].map String.data).any
    (fun k => wordHit k f)

/-- TaintSinkDB::isCommandSinkFunction (exact matches only). -/
def isCommandSinkFunction (f : Str) : Bool :=
  decide (f ∈ (["system", "popen", "exec", "execl", "execlp", "execle",
    "execv", "execvp", "execvpe", "ShellExecute", "WinExec",
    "CreateProcess", "fork", "posix_spawn", "wordexp"].map String.data))

/-- TaintSinkDB::isFilePathSinkFunction (exact matches only). -/
def isFilePathSinkFunction (f : Str) : Bool :=
  decide (f ∈ (["fopen", "open", "openat", "creat", "freopen",
    "remove", "unlink", "rmdir", "mkdir", "chmod",
    "chown", "link", "symlink", "rename", "stat", "lstat"].map String.data))

/-- TaintAnalyzer::isFormatStringSink's name test. -/
def isFormatStringSink (f : Str) : Bool :=
  f == ("printf".data) || f == ("sprintf".data) ||
  f == ("fprintf".data) || f == ("snprintf".data)

/-- TaintSinkDB::getRiskType. -/
def getRiskType (f : Str) : Str :=
  if isSQLSinkFunction f then "SQL注入".data
  else if isCommandSinkFunction f then "命令注入".data
  else if isFilePathSinkFunction f then "路径遍历".data
  else "数据污染".data

/-- TaintSinkDB::getSeverity. -/
def getSeverity (f : Str) : Severity :=
  if isSQLSinkFunction f then Severity.CRITICAL
  else if isCommandSinkFunction f then Severity.CRITICAL
  else if isFilePathSinkFunction f then Severity.HIGH
  else Severity.MEDIUM

/-- TaintAnalyzer::isTainted: empty names are never tainted, otherwise set
membership. -/
def isTainted (st : TaintState) (name : Str) : Bool :=
  if name.isEmpty then false else decide (name ∈ st.tainted_vars)

/-- TaintAnalyzer::markTainted: ignore empty names, otherwise insert the
name into the tainted set and record its source in the map. -/
def markTainted (st : TaintState) (name : Str) (src : TaintSource) : TaintState :=
  if name.isEmpty then st
  else
    { tainted_vars := setInsert name st.tainted_vars,
      taint_sources := mapInsert name src st.taint_sources }

/-- The first half of the assignment branch of propagateTaint: when the
right-hand side's name is non-empty and tainted, propagate its recorded
TaintSource to the left-hand side under the new name (origin metadata is
carried over). -/
def assignPropagateStep (st : TaintState) (lhs rhs : Str) : TaintState :=
  if !rhs.isEmpty && isTainted st rhs then
    match mapFind rhs st.taint_sources with
    | some src => markTainted st lhs { src with variable_name := lhs }
    | none => st
  else st

/-- The second half of the assignment branch: when the right-hand side is a
call classified as an input/network/file/environment source, mark the
left-hand side tainted with a fresh TaintSource at the call site. -/
def assignSourceStep (st : TaintState) (lhs : Str) (rhsE : Node) : TaintState :=
  match rhsE with
  | Node.call fname _ line column =>
    if isUserInputFunction fname || isNetworkFunction fname ||
        isFileFunction fname || isEnvironmentFunction fname then
      markTainted st lhs
        { variable_name := lhs, type := getTaintType fname,
          line := line, column := column,
          description := ("Tainted data from ".data) ++ fname }
    else st
  | _ => st

/-- The assignment branch of propagateTaint: skip when the left-hand side
has no extractable name; otherwise run the taint-propagation step and then
the source-classification step. -/
def processAssign (st : TaintState) (lhsE rhsE : Node) : TaintState :=
  if (getVariableName lhsE).isEmpty then st
  else
    assignSourceStep
      (assignPropagateStep st (getVariableName lhsE) (getVariableName rhsE))
      (getVariableName lhsE) rhsE

/-- The findings reportTaintFlow emits for one sink call: one per argument
whose extracted name is non-empty, tainted, and present in the source map,
in argument order. -/
def sinkFindings (st : TaintState) (fname : Str) (args : List Node)
    (line column : Nat) : List TaintFinding :=
  (args.enum).foldr
    (fun ia acc =>
      let n := getVariableName ia.2
      if !n.isEmpty && isTainted st n then
        match mapFind n st.taint_sources with
        | some src =>
          { source := src,
            sink := { function_name := fname, tainted_args := [ia.1],
                      line := line, column := column,
                      risk_type := getRiskType fname,
                      severity := getSeverity fname } } :: acc
        | none => acc
      else acc)
    []

/-- The call branch of propagateTaint: a sanitizer call removes every
(non-empty) argument name from both taint containers; otherwise a sink call
reports a finding for every tainted argument. -/
def processCall (st : TaintState) (fname : Str) (args : List Node)
    (line column : Nat) : TaintState × List TaintFinding :=
  if isSanitizationFunction fname then
    (args.foldl
      (fun s a =>
        let n := getVariableName a
        if n.isEmpty then s
        else
          { tainted_vars := setErase n s.tainted_vars,
            taint_sources := mapErase n s.taint_sources })
      st, [])
  else if isSQLSinkFunction fname || isCommandSinkFunction fname ||
      isFilePathSinkFunction fname || isFormatStringSink fname then
    (st, sinkFindings st fname args line column)
  else (st, [])

/-- The non-recursive part of propagateTaint applied to one node: the
assignment handling followed by the call (sanitizer/sink) handling; an
assignment is not a call expression, so the two dispatches are disjoint. -/
def processNode (node : Node) (st : TaintState) : TaintState × List TaintFinding :=
  let st1 :=
    match node with
    | Node.assign l r => processAssign st l r
    | _ => st
  match node with
  | Node.call fname args line column => processCall st1 fname args line column
  | _ => (st1, [])

/-- TaintAnalyzer::propagateTaint.  The C++ guards recursion into children
with a thread-local depth counter against MAX_DEPTH = 1000; here the
remaining depth budget (MAX_DEPTH minus the current depth) is threaded as an
explicit fuel argument, so fuel 0 is the cap: the node itself is still
processed, a warning is printed, and its children are not visited. -/
def propagate : Nat → Node → TaintState → TaintState × List TaintFinding
  | fuel, node, st =>
    let p := processNode node st
    match fuel with
    | 0 => p
    | f + 1 =>
      let q := (children node).foldl
        (fun acc c =>
          let r := propagate f c acc.1
          (r.1, acc.2 ++ r.2))
        (p.1, ([] : List TaintFinding))
      (q.1, p.2 ++ q.2)

/-- The recursion-depth cap MAX_DEPTH of propagateTaint. -/
def MAX_DEPTH : Nat := 1000

/-- TaintAnalyzer::analyzeFunction on a function body: clear both taint
containers of the analyzer's previous state, then walk the body from depth
0 (a full fuel budget of MAX_DEPTH). -/
def analyzeFunction (st : TaintState) (body : Node) :
    TaintState × List TaintFinding :=
  let _ := st
  propagate MAX_DEPTH body { tainted_vars := [], taint_sources := [] }

/-! ## Rule dispatcher (src/rules/rule_engine.cpp)

A registered rule, run over one fixed translation unit, either completes and
appends a list of issues to the shared reporter, or raises an exception with
a message (what the C++ catches as std::exception::what()).  Running a rule
on the fixed unit is therefore modelled as an Except value. -/

/-- One registered detector: its stable rule id and the outcome of invoking
check(context, reporter) on the unit under analysis. -/
structure RegRule where
  rule_id : Str
  check : Except Str (List Issue)

/-- The log line printed when a rule throws: "Error running rule <id>: <what>". -/
def errLog (rule_id what : Str) : Str :=
  ("Error running rule ".data) ++ rule_id ++ (": ".data) ++ what

/-- RuleEngine::runAllRules: invoke every registered rule in registration
order; a throwing rule contributes a log line (with its rule id) instead of
issues, and the loop continues with the remaining rules. Returns the
reporter's issue list and the error log. -/
def runAllRules : List RegRule → List Issue × List Str
  | [] => ([], [])
  | r :: rest =>
    let tail := runAllRules rest
    match r.check with
    | Except.ok issues => (issues ++ tail.1, tail.2)
    | Except.error e => (tail.1, errLog r.rule_id e :: tail.2)

/-! ## Buffer overflow visitor (rule_engine.cpp, BufferOverflowVisitor)

The visitor learns constant-array sizes from variable declarations
(VisitVarDecl) and checks every array subscript whose base resolves to a
declared variable (VisitArraySubscriptExpr).  The embedding keys the size
map by variable name and takes the result of tryGetConstantIndex as an
optional integer. -/

/-- BufferOverflowVisitor::VisitVarDecl: record the size of a constant-size
array declaration in arraySizes_. -/
def boVisitVarDecl (sizes : List (Str × Nat)) (declName : Str)
    (constArraySize : Option Nat) : List (Str × Nat) :=
  match constArraySize with
  | some n => mapInsert declName n sizes
  | none => sizes

/-- BufferOverflowVisitor::VisitArraySubscriptExpr for a subscript whose
base resolves to the variable arrayName, with idx the constant value of the
index when tryGetConstantIndex succeeds: unknown-size arrays get only the
negative-constant-index check; known-size arrays get the full constant
bounds check, and a non-constant index yields a LOW hint when the size is
at most 10. -/
def boVisitSubscript (sizes : List (Str × Nat)) (arrayName : Str)
    (idx : Option Int) (loc : SrcLoc) : List Issue :=
  match mapFind arrayName sizes with
  | none =>
    match idx with
    | some v =>
      if v < 0 then
        [{ file_path := loc.file, line := loc.line, column := loc.column,
           severity := Severity.CRITICAL,
           rule_id := "BUFFER-OVERFLOW-001".data,
           description := ("Array access with negative index ".data) ++
             intToStr v ++ (" will cause buffer underflow.".data),
           suggestion := ("Use non-negative array indices:\n  - Ensure index >= 0 before array access\n  - Use unsigned types for array indices\n  - Consider using std::vector with at() for bounds checking".data) }]
      else []
    | none => []
  | some arraySize =>
    match idx with
    | some v =>
      if v < 0 ∨ (arraySize : Int) ≤ v then
        [{ file_path := loc.file, line := loc.line, column := loc.column,
           severity := Severity.CRITICAL,
           rule_id := "BUFFER-OVERFLOW-001".data,
           description := ("Buffer ".data) ++
             (if v < 0 then "underflow".data else "overflow".data) ++
             (": Array '".data) ++ arrayName ++ ("' has size ".data) ++
             natToStr arraySize ++ (" but accessed with index ".data) ++
             intToStr v ++ (".".data),
           suggestion := ("Ensure array index is within valid range [0, ".data) ++
             natToStr (arraySize - 1) ++
             ("]:\n  - Add bounds checking: if (index < size) \x7b array[index] \x7d\n  - Use std::array or std::vector with at() for automatic bounds checking\n  - Fix the constant index to be within valid range".data) }]
      else []
    | none =>
      if arraySize ≤ 10 then
        [{ file_path := loc.file, line := loc.line, column := loc.column,
           severity := Severity.LOW,
           rule_id := "BUFFER-OVERFLOW-001".data,
           description := ("Array '".data) ++ arrayName ++
             ("' accessed with non-constant index. Array has size ".data) ++
             natToStr arraySize ++ (". Consider adding bounds checking.".data),
           suggestion := ("Add bounds checking for dynamic array access:\n  - if (index >= 0 && index < ".data) ++
             natToStr arraySize ++
             (") \x7b array[index] \x7d\n  - Use std::array::at() or std::vector::at() for automatic bounds checking\n  - Use assertions: assert(index >= 0 && index < size)".data) }]
      else []

/-! ## Memory leak rule (src/rules/memory_leak_rule.cpp, memory_leak_rule.h)

The visitor records, per variable declared with a raw new-expression
initializer, an AllocationInfo; delete expressions and return statements
whose operand resolves to a recorded variable set the is_deleted /
is_returned flags.  The traversal events relevant to the rule are modelled
as a list of statements in visitation order. -/

/-- MemoryLeakVisitor::AllocationInfo. -/
structure AllocationInfo where
  location : SrcLoc
  variable_name : Str
  is_deleted : Bool
  is_returned : Bool
deriving DecidableEq, Repr

/-- The traversal events MemoryLeakVisitor reacts to, in visitation order:
a local variable initialized with a new-expression (VisitVarDecl), a delete
of a variable (VisitCXXDeleteExpr), a return of a variable
(VisitReturnStmt), and anything else. -/
inductive MLStmt where
  | declNew (name : Str) (loc : SrcLoc)
  | deleteVar (name : Str)
  | returnVar (name : Str)
  | other
deriving DecidableEq, Repr

/-- One visitor step on the allocations_ map (keyed here by variable name;
the C++ keys by the resolved VarDecl pointer, which is equivalent for
distinct names). -/
def mlApply (allocs : List (Str × AllocationInfo)) : MLStmt → List (Str × AllocationInfo)
  | MLStmt.declNew name loc =>
    mapInsert name
      { location := loc, variable_name := name,
        is_deleted := false, is_returned := false } allocs
  | MLStmt.deleteVar name =>
    mapUpdate name (fun i => { i with is_deleted := true }) allocs
  | MLStmt.returnVar name =>
    mapUpdate name (fun i => { i with is_returned := true }) allocs
  | MLStmt.other => allocs

/-- The visitor traversal: fold the events over an initially empty
allocations_ map. -/
def mlTraverse (prog : List MLStmt) : List (Str × AllocationInfo) :=
  prog.foldl mlApply []

/-- MemoryLeakVisitor::checkForLeak on one recorded allocation, given the
declared type's name: no issue when the pointer was deleted or returned, or
when the type is a standard smart pointer; otherwise one MEMORY-LEAK-001
issue of HIGH severity at the allocation site. -/
def checkForLeak (typeName : Str) (info : AllocationInfo) : List Issue :=
  if info.is_deleted || info.is_returned then []
  else if strContainsSub ("std::unique_ptr".data) typeName ||
      strContainsSub ("std::shared_ptr".data) typeName then []
  else
    [{ file_path := info.location.file, line := info.location.line,
       column := info.location.column,
       severity := Severity.HIGH,
       rule_id := "MEMORY-LEAK-001".data,
       description := ("Potential memory leak: Variable '".data) ++
         info.variable_name ++
         ("' is allocated with 'new' but never deleted. This will cause memory leak when the variable goes out of scope.".data),
       suggestion := ("Use 'delete' to free the memory, or better yet, use smart pointers (std::unique_ptr or std::shared_ptr) for automatic memory management. Example: auto ".data) ++
         info.variable_name ++ (" = std::make_unique<T>();".data),
       code_snippet := "new allocation detected".data }]

/-- MemoryLeakRule::check, exactly as the source has it: construct the
visitor, traverse the translation unit (building allocations_), and return.
The function body ends after the traversal with only the comment "After
traversal, check for leaks"; checkForLeak has no call site anywhere in the
repository, so no issue is ever added to the reporter. -/
def memoryLeakRuleCheck (prog : List MLStmt) : List Issue :=
  let _allocations := mlTraverse prog
  []

/-! ## Basic lemmas about the string and file-system model -/

/-- A path never equals its own backup path. -/
theorem backup_path_ne (p : Str) : p ≠ p ++ dotBackup := by
  intro h
  have hl := congrArg List.length h
  have h7 : dotBackup.length = 7 := rfl
  rw [List.length_append, h7] at hl
  omega

/-- Stripping the ".backup" suffix recovers the original path. -/
theorem originalOfBackup_append (p : Str) : originalOfBackup (p ++ dotBackup) = p := by
  unfold originalOfBackup
  have h7 : dotBackup.length = 7 := rfl
  rw [List.length_append, h7]
  rw [if_neg (by omega)]
  have : p.length + 7 - 7 = p.length := by omega
  rw [this, List.take_left]

theorem fsWrite_self (fs : FS) (p c : Str) : fsWrite fs p c p = some c := by
  simp [fsWrite]

theorem fsWrite_other (fs : FS) (p c q : Str) (h : q ≠ p) : fsWrite fs p c q = fs q := by
  simp [fsWrite, h]

theorem fsRemove_other (fs : FS) (p q : Str) (h : q ≠ p) : fsRemove fs p q = fs q := by
  simp [fsRemove, h]

/-- Lines produced by getline-style splitting never contain a newline. -/
theorem noNewline_splitLines : ∀ (cs : Str), ∀ l ∈ splitLines cs, '\n' ∉ l := by
  intro cs
  induction cs with
  | nil => simp [splitLines]
  | cons c rest ih =>
    by_cases hc : c = '\n'
    · simp only [splitLines, if_pos hc]
      intro l hl
      rcases List.mem_cons.mp hl with h | h
      · subst h; simp
      · exact ih l h
    · simp only [splitLines, if_neg hc]
      cases hsp : splitLines rest with
      | nil =>
        intro l hl
        rcases List.mem_cons.mp hl with h | h
        · subst h
          simp only [List.mem_singleton]
          exact fun hh => hc hh.symm
        · simp at h
      | cons l0 ls =>
        intro l hl
        rcases List.mem_cons.mp hl with h | h
        · subst h
          intro hmem
          rcases List.mem_cons.mp hmem with h | h
          · exact hc h.symm
          · exact ih l0 (hsp ▸ List.mem_cons_self l0 ls) h
        · exact ih l (hsp ▸ List.mem_cons_of_mem l0 h)

/-- Splitting after appending one newline-free line and a newline peels off
exactly that line. -/
theorem splitLines_append_line (l rest : Str) (h : '\n' ∉ l) :
    splitLines (l ++ '\n' :: rest) = l :: splitLines rest := by
  induction l with
  | nil => simp [splitLines]
  | cons c l' ih =>
    have hc : c ≠ '\n' := fun hp => h (hp ▸ List.mem_cons_self c l')
    have ih' := ih (fun hm => h (List.mem_cons_of_mem c hm))
    simp only [List.cons_append, splitLines, if_neg hc, List.append_eq]
    rw [ih']

/-- Round trip: serializing newline-free lines and re-splitting them is the
identity. -/
theorem splitLines_serializeLines (ls : List Str) (h : ∀ l ∈ ls, '\n' ∉ l) :
    splitLines (serializeLines ls) = ls := by
  induction ls with
  | nil => rfl
  | cons l ls ih =>
    have hl : '\n' ∉ l := h l (List.mem_cons_self l ls)
    have hrest : ∀ x ∈ ls, '\n' ∉ x := fun x hx => h x (List.mem_cons_of_mem l hx)
    simp only [serializeLines, splitLines_append_line l _ hl, ih hrest]

/-- A needle is a prefix of itself. -/
theorem strStarts_refl : ∀ x : Str, strStarts x x = true := by
  intro x
  induction x with
  | nil => rfl
  | cons a as ih => simp [strStarts, ih]

/-- std::string::find always finds a string inside itself (at index 0). -/
theorem strContainsSub_self (x : Str) : strContainsSub x x = true := by
  cases x with
  | nil => rfl
  | cons a as =>
    simp [strContainsSub, strFind, strFindAux, strStarts_refl]

/-- The inserted element is a member of the result of insertAt. -/
theorem insertAt_mem (n : Nat) (x : Str) (ls : List Str) : x ∈ insertAt n x ls := by
  induction n generalizing ls with
  | zero => exact List.mem_cons_self x ls
  | succ n ih =>
    cases ls with
    | nil => simp [insertAt]
    | cons l rest => exact List.mem_cons_of_mem l (ih rest)

/-- Members of insertAt are the inserted element or members of the list. -/
theorem mem_insertAt_elim (n : Nat) (x y : Str) (ls : List Str)
    (h : y ∈ insertAt n x ls) : y = x ∨ y ∈ ls := by
  induction n generalizing ls with
  | zero =>
    rcases List.mem_cons.mp h with h | h
    · exact Or.inl h
    · exact Or.inr h
  | succ n ih =>
    cases ls with
    | nil =>
      simp [insertAt] at h
      exact Or.inl h
    | cons l rest =>
      rcases List.mem_cons.mp h with h | h
      · exact Or.inr (h ▸ List.mem_cons_self l rest)
      · rcases ih rest h with h | h
        · exact Or.inl h
        · exact Or.inr (List.mem_cons_of_mem l h)

/-- After the AddInclude transformation some line always contains the
include text: either one already did, or the text itself was inserted. -/
theorem addIncludeLines_any (lines : List Str) (code : Str) :
    (addIncludeLines lines code).any (fun l => strContainsSub code l) = true := by
  unfold addIncludeLines
  split
  · assumption
  · exact List.any_eq_true.mpr
      ⟨code, insertAt_mem _ code lines, strContainsSub_self code⟩

/-- AddInclude is the identity when some line already contains the text. -/
theorem addIncludeLines_of_any (lines : List Str) (code : Str)
    (h : lines.any (fun l => strContainsSub code l) = true) :
    addIncludeLines lines code = lines := by
  unfold addIncludeLines
  rw [if_pos h]

/-- AddInclude keeps lines newline-free when the inserted text is. -/
theorem addIncludeLines_noNewline (lines : List Str) (code : Str)
    (hls : ∀ l ∈ lines, '\n' ∉ l) (hc : '\n' ∉ code) :
    ∀ l ∈ addIncludeLines lines code, '\n' ∉ l := by
  intro l hl
  unfold addIncludeLines at hl
  split at hl
  · exact hls l hl
  · rcases mem_insertAt_elim _ _ _ _ hl with h | h
    · exact h ▸ hc
    · exact hls l h

/-- Every branch of the applyFix switch either fails leaving the fixer state
and file system untouched, or succeeds writing some serialized line list to
the target path, leaving the state untouched. -/
theorem applySwitch_shape (fx : AutoFixer) (fs : FS) (fix : FixAction)
    (lines : List Str) :
    applySwitch fx fs fix lines = (false, fx, fs) ∨
    ∃ ls, applySwitch fx fs fix lines
      = (true, fx, fsWrite fs fix.file_path (serializeLines ls)) := by
  cases h : fix.type <;> simp only [applySwitch, h, finishWrite] <;>
    first
      | exact Or.inr ⟨_, rfl⟩
      | (split_ifs <;>
          first
            | exact Or.inl rfl
            | exact Or.inr ⟨_, rfl⟩)

/-- Backing up then reading: applyFix on an existing file, with backups
enabled, reduces to the edit switch run on the file's lines, over the file
system holding the fresh backup, with the backup recorded. -/
theorem applyFix_backup_step (bfs : List Str) (fs : FS) (fix : FixAction)
    (F : Str) (hF : fs fix.file_path = some F) :
    applyFix { create_backup := true, backup_files := bfs } fs fix =
      applySwitch
        { create_backup := true,
          backup_files := bfs ++ [fix.file_path ++ dotBackup] }
        (fsWrite fs (fix.file_path ++ dotBackup) F) fix (splitLines F) := by
  have hread : fsWrite fs (fix.file_path ++ dotBackup) F fix.file_path = some F := by
    rw [fsWrite_other _ _ _ _ (backup_path_ne _)]
    exact hF
  simp only [applyFix, createBackup, hF]
  simp [hread]

/-- Invalid line bounds for the three line-addressed fix kinds, for a file
of n lines: line_start 0 always, line_start beyond the line count for
Replace and Delete, and line_start beyond line count + 1 for Insert. -/
def invalidBounds (fix : FixAction) (n : Nat) : Prop :=
  (fix.type = FixType.REPLACE ∧ (fix.line_start = 0 ∨ n < fix.line_start)) ∨
  (fix.type = FixType.INSERT ∧ (fix.line_start = 0 ∨ n + 1 < fix.line_start)) ∨
  (fix.type = FixType.DELETE ∧ (fix.line_start = 0 ∨ n < fix.line_start))

/-- The edit switch rejects invalid line bounds without touching anything. -/
theorem applySwitch_invalid (fx : AutoFixer) (fs : FS) (fix : FixAction)
    (lines : List Str) (hb : invalidBounds fix lines.length) :
    applySwitch fx fs fix lines = (false, fx, fs) := by
  rcases hb with ⟨hty, hls⟩ | ⟨hty, hls⟩ | ⟨hty, hls⟩
  · simp only [applySwitch, hty]
    rw [if_pos hls]
  · simp only [applySwitch, hty]
    rw [if_pos hls]
  · simp only [applySwitch, hty]
    rw [if_pos (by rcases hls with h | h
                   · exact Or.inl h
                   · exact Or.inr (Or.inr (Or.inl h)))]

/-- Rollback of a single recorded backup restores the backed-up bytes over
the original path. -/
theorem rollback_single (cb : Bool) (fs' : FS) (p F : Str)
    (h : fs' (p ++ dotBackup) = some F) :
    (rollback { create_backup := cb, backup_files := [p ++ dotBackup] } fs').2.2 p
      = some F := by
  have hne : ¬([p ++ dotBackup] = ([] : List Str)) := by simp
  simp only [rollback, if_neg hne, rollbackLoop, h, originalOfBackup_append]
  rw [fsRemove_other _ _ _ (backup_path_ne p), fsWrite_self]

/-- C1. Apply/rollback round trip: for a fresh fixer with backups enabled
and any FixAction targeting an existing file F, applyFix (which copies the
file byte-for-byte to path ++ ".backup" before any mutation) followed by
rollback leaves the target file with exactly its original bytes. -/
theorem applyFix_rollback_restores_original (fs : FS) (F : Str) (fix : FixAction)
    (hF : fs fix.file_path = some F) :
    (rollback (applyFix { create_backup := true, backup_files := [] } fs fix).2.1
              (applyFix { create_backup := true, backup_files := [] } fs fix).2.2).2.2
      fix.file_path = some F := by
  rw [applyFix_backup_step [] fs fix F hF]
  simp only [List.nil_append]
  rcases applySwitch_shape
      { create_backup := true, backup_files := [fix.file_path ++ dotBackup] }
      (fsWrite fs (fix.file_path ++ dotBackup) F) fix (splitLines F) with h | ⟨ls, h⟩
  · rw [h]
    exact rollback_single true _ _ F (fsWrite_self fs _ F)
  · rw [h]
    refine rollback_single true _ _ F ?_
    dsimp only
    rw [fsWrite_other _ _ _ _ (Ne.symm (backup_path_ne _)), fsWrite_self]

/-- C1 witness at a concrete file and Replace action. -/
def demoFS : FS :=
  fun q => if q = ("a.cpp".data) then some ("int x;\n".data) else none

/-- A valid whole-line Replace on line 1 of the demo file. -/
def fixReplaceLine1 : FixAction :=
  { type := FixType.REPLACE, file_path := "a.cpp".data,
    line_start := 1, line_end := 1, column_start := 0, column_end := 0,
    new_code := "long x;".data }

theorem applyFix_rollback_restores_original_witness :
    (rollback (applyFix { create_backup := true, backup_files := [] } demoFS fixReplaceLine1).2.1
              (applyFix { create_backup := true, backup_files := [] } demoFS fixReplaceLine1).2.2).2.2
      fixReplaceLine1.file_path = some ("int x;\n".data) :=
  applyFix_rollback_restores_original demoFS ("int x;\n".data) fixReplaceLine1 (by decide)

/-- C4 (amended). For the three line-addressed kinds Replace, Insert and
Delete, applyFix on an action with invalid line bounds returns false and
leaves the target file's contents untouched. -/
theorem applyFix_invalid_bounds_rejected (fs : FS) (F : Str) (fix : FixAction)
    (hF : fs fix.file_path = some F)
    (hb : invalidBounds fix (splitLines F).length) :
    (applyFix { create_backup := true, backup_files := [] } fs fix).1 = false ∧
    (applyFix { create_backup := true, backup_files := [] } fs fix).2.2 fix.file_path
      = some F := by
  rw [applyFix_backup_step [] fs fix F hF, applySwitch_invalid _ _ _ _ hb]
  refine ⟨rfl, ?_⟩
  dsimp only
  rw [fsWrite_other _ _ _ _ (backup_path_ne _)]
  exact hF

/-- A Replace with line_start = 0, used as the invalid-bounds example. -/
def fixReplaceLS0 : FixAction :=
  { type := FixType.REPLACE, file_path := "a.cpp".data,
    line_start := 0, line_end := 0, column_start := 0, column_end := 0,
    new_code := "long x;".data }

theorem applyFix_invalid_bounds_rejected_witness :
    (applyFix { create_backup := true, backup_files := [] } demoFS fixReplaceLS0).1 = false ∧
    (applyFix { create_backup := true, backup_files := [] } demoFS fixReplaceLS0).2.2
      fixReplaceLS0.file_path = some ("int x;\n".data) :=
  applyFix_invalid_bounds_rejected demoFS ("int x;\n".data) fixReplaceLS0
    (by decide) (Or.inl ⟨rfl, Or.inl rfl⟩)

/-- An AddInclude action carrying line_start = 0. -/
def fixAddIncludeLS0 : FixAction :=
  { type := FixType.ADD_INCLUDE, file_path := "a.cpp".data,
    line_start := 0, line_end := 0, column_start := 0, column_end := 0,
    new_code := "#include <memory>".data }

/-- C4 counterexample: an AddInclude action with line_start = 0 is not
rejected — applyFix returns true and rewrites the target file (the
ADD_INCLUDE and REWRITE branches never read the line bounds), contradicting
the claim that line_start = 0 makes applyFix return false for every kind
and leave the file unmodified. -/
theorem applyFix_lineStart0_addInclude_not_rejected :
    (applyFix { create_backup := true, backup_files := [] } demoFS fixAddIncludeLS0).1 = true ∧
    (applyFix { create_backup := true, backup_files := [] } demoFS fixAddIncludeLS0).2.2
      ("a.cpp".data) = some ("#include <memory>\nint x;\n".data) := by
  constructor
  · decide
  · decide

/-- C10. applyFix creates the backup file and appends the backup record
before validating line bounds: a call that fails validation still returns
with a fresh byte-identical backup on disk and its record appended to the
backup list (which a later rollback will process). -/
theorem applyFix_backup_before_validation (bfs : List Str) (fs : FS) (F : Str)
    (fix : FixAction) (hF : fs fix.file_path = some F)
    (hb : invalidBounds fix (splitLines F).length) :
    (applyFix { create_backup := true, backup_files := bfs } fs fix).1 = false ∧
    (applyFix { create_backup := true, backup_files := bfs } fs fix).2.2
      (fix.file_path ++ dotBackup) = some F ∧
    (applyFix { create_backup := true, backup_files := bfs } fs fix).2.1.backup_files
      = bfs ++ [fix.file_path ++ dotBackup] := by
  rw [applyFix_backup_step bfs fs fix F hF, applySwitch_invalid _ _ _ _ hb]
  exact ⟨rfl, fsWrite_self _ _ _, rfl⟩

theorem applyFix_backup_before_validation_witness :
    (applyFix { create_backup := true, backup_files := [] } demoFS fixReplaceLS0).1 = false ∧
    (applyFix { create_backup := true, backup_files := [] } demoFS fixReplaceLS0).2.2
      (fixReplaceLS0.file_path ++ dotBackup) = some ("int x;\n".data) ∧
    (applyFix { create_backup := true, backup_files := [] } demoFS fixReplaceLS0).2.1.backup_files
      = [] ++ [fixReplaceLS0.file_path ++ dotBackup] :=
  applyFix_backup_before_validation [] demoFS ("int x;\n".data) fixReplaceLS0
    (by decide) (Or.inl ⟨rfl, Or.inl rfl⟩)

/-- C6 (amended). Applying the same AddInclude action twice, for an include
text that is a single line (no embedded newline), produces a file identical
to applying it once: the second application finds a line already containing
the literal include text, performs no insertion, and serializes the same
lines back. -/
theorem applyFix_addInclude_idempotent (fs : FS) (F : Str) (fix : FixAction)
    (hty : fix.type = FixType.ADD_INCLUDE) (hF : fs fix.file_path = some F)
    (hnl : '\n' ∉ fix.new_code) :
    (applyFix (applyFix { create_backup := true, backup_files := [] } fs fix).2.1
              (applyFix { create_backup := true, backup_files := [] } fs fix).2.2 fix).2.2
      fix.file_path
    = (applyFix { create_backup := true, backup_files := [] } fs fix).2.2
        fix.file_path := by
  have hr1 : applyFix { create_backup := true, backup_files := [] } fs fix
      = (true,
         { create_backup := true, backup_files := [fix.file_path ++ dotBackup] },
         fsWrite (fsWrite fs (fix.file_path ++ dotBackup) F) fix.file_path
           (serializeLines (addIncludeLines (splitLines F) fix.new_code))) := by
    rw [applyFix_backup_step [] fs fix F hF]
    simp only [applySwitch, hty, finishWrite, List.nil_append]
  have h21 : (applyFix { create_backup := true, backup_files := [] } fs fix).2.1
      = { create_backup := true, backup_files := [fix.file_path ++ dotBackup] } := by
    rw [hr1]
  have h22 : (applyFix { create_backup := true, backup_files := [] } fs fix).2.2
      = fsWrite (fsWrite fs (fix.file_path ++ dotBackup) F) fix.file_path
          (serializeLines (addIncludeLines (splitLines F) fix.new_code)) := by
    rw [hr1]
  rw [h21, h22]
  have hF2 : fsWrite (fsWrite fs (fix.file_path ++ dotBackup) F) fix.file_path
      (serializeLines (addIncludeLines (splitLines F) fix.new_code)) fix.file_path
      = some (serializeLines (addIncludeLines (splitLines F) fix.new_code)) :=
    fsWrite_self _ _ _
  rw [applyFix_backup_step [fix.file_path ++ dotBackup] _ fix _ hF2]
  have hsplit : splitLines (serializeLines (addIncludeLines (splitLines F) fix.new_code))
      = addIncludeLines (splitLines F) fix.new_code :=
    splitLines_serializeLines _
      (addIncludeLines_noNewline _ _ (noNewline_splitLines F) hnl)
  rw [hsplit]
  simp only [applySwitch, hty, finishWrite]
  rw [addIncludeLines_of_any _ _ (addIncludeLines_any _ _)]
  rw [fsWrite_self, fsWrite_self]

/-- An AddInclude action whose text spans two lines. -/
def fixAddIncludeML : FixAction :=
  { type := FixType.ADD_INCLUDE, file_path := "a.cpp".data,
    line_start := 1, line_end := 0, column_start := 0, column_end := 0,
    new_code := "a\nb".data }

/-- C6 counterexample: for an AddInclude action whose include text contains
a newline, applying it twice to the demo file does not equal applying it
once — the inserted text is split into two lines on write-back, so the
second application's containment scan misses it and inserts again. -/
theorem applyFix_addInclude_twice_differs :
    (applyFix (applyFix { create_backup := true, backup_files := [] } demoFS fixAddIncludeML).2.1
              (applyFix { create_backup := true, backup_files := [] } demoFS fixAddIncludeML).2.2
              fixAddIncludeML).2.2 ("a.cpp".data)
    ≠ (applyFix { create_backup := true, backup_files := [] } demoFS fixAddIncludeML).2.2
        ("a.cpp".data) := by
  decide

theorem applyFix_addInclude_idempotent_witness :
    (applyFix (applyFix { create_backup := true, backup_files := [] } demoFS fixAddIncludeLS0).2.1
              (applyFix { create_backup := true, backup_files := [] } demoFS fixAddIncludeLS0).2.2
              fixAddIncludeLS0).2.2 fixAddIncludeLS0.file_path
    = (applyFix { create_backup := true, backup_files := [] } demoFS fixAddIncludeLS0).2.2
        fixAddIncludeLS0.file_path :=
  applyFix_addInclude_idempotent demoFS ("int x;\n".data) fixAddIncludeLS0
    rfl (by decide) (by decide)

/-- The spec's taint scenario verbatim: x = read_input(); y = x; query(y),
with the read_input call at line 10 column 5 and the query call at line 12
column 3. -/
def taintProgReadInput : Node :=
  Node.compound
    [Node.assign (Node.var ("x".data)) (Node.call ("read_input".data) [] 10 5),
     Node.assign (Node.var ("y".data)) (Node.var ("x".data)),
     Node.call ("query".data) [Node.var ("y".data)] 12 3]

/-- The same scenario with a source function the classification tables
recognize: readline is in TaintSourceDB's exact user-input table. -/
def taintProgReadline : Node :=
  Node.compound
    [Node.assign (Node.var ("x".data)) (Node.call ("readline".data) [] 10 5),
     Node.assign (Node.var ("y".data)) (Node.var ("x".data)),
     Node.call ("query".data) [Node.var ("y".data)] 12 3]

/-- The readline scenario with y = sanitize(y); inserted before query(y). -/
def taintProgSanitized : Node :=
  Node.compound
    [Node.assign (Node.var ("x".data)) (Node.call ("readline".data) [] 10 5),
     Node.assign (Node.var ("y".data)) (Node.var ("x".data)),
     Node.assign (Node.var ("y".data))
       (Node.call ("sanitize".data) [Node.var ("y".data)] 11 3),
     Node.call ("query".data) [Node.var ("y".data)] 12 3]

/-- The empty taint state (a freshly reset analyzer). -/
def emptyTaint : TaintState := { tainted_vars := [], taint_sources := [] }

/-- C2 counterexample: for the scenario exactly as written in the claim,
with source function name read_input, the analyzer reports no finding at
all — read_input is neither in the exact user-input table nor matched by
the case-sensitive whole-word keywords Input/Read/Receive/Get, so x is
never marked tainted and query(y) sees no tainted argument; the claim's
"exactly one finding" is false here. -/
theorem taint_read_input_reports_nothing :
    (analyzeFunction emptyTaint taintProgReadInput).2 = [] := by
  decide

/-- C2 (amended). For the same statement shape with a source function the
tables recognize (x = readline(); y = x; query(y)), the analyzer reports
exactly one finding, of SQL-injection risk at CRITICAL severity, whose
recorded source carries the readline() call site's line and column (they
survive the propagation from x to y); and inserting y = sanitize(y); before
query(y) removes y from the tainted set, so no finding is reported. -/
theorem taint_readline_flow_reported :
    ((analyzeFunction emptyTaint taintProgReadline).2.map
      (fun f => (f.source.line, f.source.column,
                 f.sink.function_name, f.sink.risk_type, f.sink.severity)))
      = [(10, 5, "query".data, "SQL注入".data, Severity.CRITICAL)] ∧
    (analyzeFunction emptyTaint taintProgSanitized).2 = [] := by
  constructor
  · decide
  · decide

/-- The allocation site of the leaked variable in the C3 scenario. -/
def mlLoc : SrcLoc := { file := "t.cpp".data, line := 3, column := 5 }

/-- The C3 scenario: a local variable p initialized by a raw new, never
deleted and never returned. -/
def mlProgLeak : List MLStmt := [MLStmt.declNew ("p".data) mlLoc]

/-- C3 (code bug). For a variable allocated with new and neither deleted
nor returned, MemoryLeakRule::check produces no finding at all: its body
traverses the unit and returns without ever calling checkForLeak (the
string "After traversal, check for leaks" is only a comment).  The
traversal does record the allocation with both flags false, and the
uncalled checkForLeak applied to that record would emit exactly the one
MEMORY-LEAK-001 finding the claim (and the rule's own documentation)
describes. -/
theorem memoryLeak_check_reports_nothing :
    memoryLeakRuleCheck mlProgLeak = [] ∧
    mlTraverse mlProgLeak
      = [("p".data,
          { location := mlLoc, variable_name := "p".data,
            is_deleted := false, is_returned := false })] ∧
    ((checkForLeak ("int *".data)
        { location := mlLoc, variable_name := "p".data,
          is_deleted := false, is_returned := false }).map
      (fun i => (i.rule_id, i.severity, i.line)))
      = [("MEMORY-LEAK-001".data, Severity.HIGH, 3)] := by
  refine ⟨rfl, by decide, by decide⟩

/-- Location used by the buffer-overflow scenario. -/
def boLoc : SrcLoc := { file := "t.cpp".data, line := 7, column := 9 }

/-- C5. For a declared fixed-size array buf of length 5: constant index 4
produces no finding; constant index 5 produces exactly one CRITICAL overflow
finding; constant index -1 produces exactly one CRITICAL underflow finding;
and a non-constant index produces exactly one LOW-severity hint (the size 5
is at most 10). -/
theorem bufferOverflow_array5_cases :
    boVisitSubscript (boVisitVarDecl [] ("buf".data) (some 5)) ("buf".data)
      (some 4) boLoc = [] ∧
    ((boVisitSubscript (boVisitVarDecl [] ("buf".data) (some 5)) ("buf".data)
      (some 5) boLoc).map
        (fun i => (i.rule_id, i.severity,
                   strContainsSub ("Buffer overflow".data) i.description)))
      = [("BUFFER-OVERFLOW-001".data, Severity.CRITICAL, true)] ∧
    ((boVisitSubscript (boVisitVarDecl [] ("buf".data) (some 5)) ("buf".data)
      (some (-1)) boLoc).map
        (fun i => (i.rule_id, i.severity,
                   strContainsSub ("Buffer underflow".data) i.description)))
      = [("BUFFER-OVERFLOW-001".data, Severity.CRITICAL, true)] ∧
    ((boVisitSubscript (boVisitVarDecl [] ("buf".data) (some 5)) ("buf".data)
      none boLoc).map (fun i => (i.rule_id, i.severity)))
      = [("BUFFER-OVERFLOW-001".data, Severity.LOW)] := by
  refine ⟨by decide, by decide, by decide, by decide⟩

/-- C7. Failure isolation in the rule dispatcher: when any one registered
rule raises an internal failure, runAllRules catches it at the loop
boundary, logs it together with the offending rule's id, and still runs
every rule registered after it — the reporter receives exactly the issues
of the non-failing rules, in registration order, and the failure never
propagates out (runAllRules is a total function returning normally). -/
theorem runAllRules_isolates_failures (rs1 rs2 : List RegRule) (rid e : Str) :
    runAllRules (rs1 ++ { rule_id := rid, check := Except.error e } :: rs2)
      = ((runAllRules rs1).1 ++ (runAllRules rs2).1,
         (runAllRules rs1).2 ++ errLog rid e :: (runAllRules rs2).2) := by
  induction rs1 with
  | nil => simp [runAllRules]
  | cons r rest ih =>
    cases hr : r.check with
    | ok issues => simp [runAllRules, hr, ih, List.append_assoc]
    | error e' => simp [runAllRules, hr, ih]

/-- C8. The taint analyzer's recursion-depth cap: at the cap (exhausted
depth budget) a statement is still processed but none of its children are
visited — the walk of that function body is abandoned below the cap (the
C++ prints a warning there instead of recursing, so there is no crash), and
since analyzeFunction clears the analyzer's containers at entry, the
analysis of any other function body is unaffected by whatever state an
aborted analysis left behind. -/
theorem taint_depth_cap (node : Node) (st st1 st2 : TaintState) (body : Node) :
    propagate 0 node st = processNode node st ∧
    analyzeFunction st1 body = analyzeFunction st2 body :=
  ⟨rfl, rfl⟩

/-- C9's invariant: the tainted-variable set and the key set of the
name-to-source map have the same members. -/
def taintInv (st : TaintState) : Prop :=
  ∀ n : Str, n ∈ st.tainted_vars ↔ n ∈ st.taint_sources.map Prod.fst

theorem mem_setInsert (a x : Str) (s : List Str) :
    a ∈ setInsert x s ↔ a = x ∨ a ∈ s := by
  unfold setInsert
  split
  · constructor
    · exact fun h => Or.inr h
    · rintro (h | h)
      · subst h; assumption
      · exact h
  · exact List.mem_cons

theorem mem_setErase (a x : Str) (s : List Str) :
    a ∈ setErase x s ↔ a ∈ s ∧ a ≠ x := by
  induction s with
  | nil => simp [setErase]
  | cons b rest ih =>
    by_cases hb : b = x
    · subst hb
      rw [setErase, if_pos rfl]
      constructor
      · intro h
        exact ⟨List.mem_cons_of_mem b (ih.mp h).1, (ih.mp h).2⟩
      · rintro ⟨hmem, hne⟩
        rcases List.mem_cons.mp hmem with h | h
        · exact absurd h hne
        · exact ih.mpr ⟨h, hne⟩
    · rw [setErase, if_neg hb]
      constructor
      · intro h
        rcases List.mem_cons.mp h with h | h
        · exact ⟨List.mem_cons.mpr (Or.inl h), h ▸ hb⟩
        · exact ⟨List.mem_cons_of_mem b (ih.mp h).1, (ih.mp h).2⟩
      · rintro ⟨hmem, hne⟩
        rcases List.mem_cons.mp hmem with h | h
        · exact List.mem_cons.mpr (Or.inl h)
        · exact List.mem_cons_of_mem b (ih.mpr ⟨h, hne⟩)

theorem mem_keys_mapInsert (a k : Str) (v : TaintSource)
    (m : List (Str × TaintSource)) :
    a ∈ (mapInsert k v m).map Prod.fst ↔ a = k ∨ a ∈ m.map Prod.fst := by
  induction m with
  | nil => simp [mapInsert]
  | cons kv rest ih =>
    rcases kv with ⟨k', v'⟩
    by_cases hk : k' = k
    · subst hk
      rw [mapInsert, if_pos rfl, List.map_cons, List.map_cons]
      constructor
      · exact fun h => Or.inr h
      · rintro (h | h)
        · exact h ▸ List.mem_cons_self a _
        · exact h
    · rw [mapInsert, if_neg hk, List.map_cons, List.map_cons]
      constructor
      · intro h
        rcases List.mem_cons.mp h with h | h
        · exact Or.inr (List.mem_cons.mpr (Or.inl h))
        · rcases ih.mp h with h | h
          · exact Or.inl h
          · exact Or.inr (List.mem_cons_of_mem k' h)
      · rintro (h | h)
        · exact List.mem_cons_of_mem k' (ih.mpr (Or.inl h))
        · rcases List.mem_cons.mp h with h | h
          · exact List.mem_cons.mpr (Or.inl h)
          · exact List.mem_cons_of_mem k' (ih.mpr (Or.inr h))

theorem mem_keys_mapErase (a k : Str) (m : List (Str × TaintSource)) :
    a ∈ (mapErase k m).map Prod.fst ↔ a ∈ m.map Prod.fst ∧ a ≠ k := by
  induction m with
  | nil => simp [mapErase]
  | cons kv rest ih =>
    rcases kv with ⟨k', v'⟩
    by_cases hk : k' = k
    · subst hk
      rw [mapErase, if_pos rfl, List.map_cons]
      constructor
      · intro h
        exact ⟨List.mem_cons_of_mem k' (ih.mp h).1, (ih.mp h).2⟩
      · rintro ⟨hmem, hne⟩
        rcases List.mem_cons.mp hmem with h | h
        · exact absurd h hne
        · exact ih.mpr ⟨h, hne⟩
    · rw [mapErase, if_neg hk, List.map_cons, List.map_cons]
      constructor
      · intro h
        rcases List.mem_cons.mp h with h | h
        · exact ⟨List.mem_cons.mpr (Or.inl h), h ▸ hk⟩
        · exact ⟨List.mem_cons_of_mem k' (ih.mp h).1, (ih.mp h).2⟩
      · rintro ⟨hmem, hne⟩
        rcases List.mem_cons.mp hmem with h | h
        · exact List.mem_cons.mpr (Or.inl h)
        · exact List.mem_cons_of_mem k' (ih.mpr ⟨h, hne⟩)

theorem taintInv_markTainted (st : TaintState) (n : Str) (src : TaintSource)
    (h : taintInv st) : taintInv (markTainted st n src) := by
  unfold markTainted
  split
  · exact h
  · intro a
    simp only [mem_setInsert, mem_keys_mapInsert]
    rw [h a]

theorem taintInv_erase (st : TaintState) (n : Str) (h : taintInv st) :
    taintInv { tainted_vars := setErase n st.tainted_vars,
               taint_sources := mapErase n st.taint_sources } := by
  intro a
  simp only [mem_setErase, mem_keys_mapErase]
  rw [h a]

theorem taintInv_assignPropagateStep (st : TaintState) (lhs rhs : Str)
    (h : taintInv st) : taintInv (assignPropagateStep st lhs rhs) := by
  unfold assignPropagateStep
  split
  · split
    · exact taintInv_markTainted _ _ _ h
    · exact h
  · exact h

theorem taintInv_assignSourceStep (st : TaintState) (lhs : Str) (rhsE : Node)
    (h : taintInv st) : taintInv (assignSourceStep st lhs rhsE) := by
  unfold assignSourceStep
  split
  · split
    · exact taintInv_markTainted _ _ _ h
    · exact h
  · exact h

theorem taintInv_processAssign (st : TaintState) (l r : Node)
    (h : taintInv st) : taintInv (processAssign st l r) := by
  unfold processAssign
  split
  · exact h
  · exact taintInv_assignSourceStep _ _ _ (taintInv_assignPropagateStep _ _ _ h)

theorem taintInv_sanitizeFold (args : List Node) (st : TaintState)
    (h : taintInv st) :
    taintInv (args.foldl
      (fun s a =>
        let n := getVariableName a
        if n.isEmpty then s
        else
          { tainted_vars := setErase n s.tainted_vars,
            taint_sources := mapErase n s.taint_sources })
      st) := by
  induction args generalizing st with
  | nil => exact h
  | cons a rest ih =>
    rw [List.foldl_cons]
    apply ih
    dsimp only
    split
    · exact h
    · exact taintInv_erase _ _ h

theorem taintInv_processCall (st : TaintState) (fname : Str) (args : List Node)
    (line column : Nat) (h : taintInv st) :
    taintInv (processCall st fname args line column).1 := by
  unfold processCall
  split
  · exact taintInv_sanitizeFold args st h
  · split
    · exact h
    · exact h

theorem taintInv_processNode (node : Node) (st : TaintState) (h : taintInv st) :
    taintInv (processNode node st).1 := by
  cases node with
  | assign l r => exact taintInv_processAssign st l r h
  | call fname args line column => exact taintInv_processCall st fname args line column h
  | var n => exact h
  | member b f => exact h
  | subscript b i => exact h
  | deref s => exact h
  | compound ss => exact h

theorem taintInv_propagate (fuel : Nat) (node : Node) (st : TaintState)
    (h : taintInv st) : taintInv (propagate fuel node st).1 := by
  induction fuel generalizing node st with
  | zero => exact taintInv_processNode node st h
  | succ f ih =>
    have hfold : ∀ (ns : List Node) (acc : TaintState × List TaintFinding),
        taintInv acc.1 →
        taintInv ((ns.foldl
          (fun acc c =>
            ((propagate f c acc.1).1, acc.2 ++ (propagate f c acc.1).2))
          acc)).1 := by
      intro ns
      induction ns with
      | nil => exact fun acc hacc => hacc
      | cons c rest ihns =>
        intro acc hacc
        rw [List.foldl_cons]
        exact ihns _ (ih c acc.1 hacc)
    rw [propagate]
    exact hfold (children node) ((processNode node st).1, [])
      (taintInv_processNode node st h)

/-- C9. The tainted-variable set and the key set of the taint-source map
stay in sync: every state-changing operation preserves the invariant that a
name is in tainted_vars_ iff it has an entry in taint_sources_ — markTainted
inserts into both, the sanitizer branch erases from both, the statement walk
preserves it, and analyzeFunction (which clears both containers at entry)
always ends in a state satisfying it. -/
theorem taint_containers_in_sync :
    (∀ (st : TaintState) (n : Str) (src : TaintSource),
        taintInv st → taintInv (markTainted st n src)) ∧
    (∀ (fuel : Nat) (node : Node) (st : TaintState),
        taintInv st → taintInv (propagate fuel node st).1) ∧
    (∀ (st : TaintState) (body : Node),
        taintInv (analyzeFunction st body).1) := by
  refine ⟨taintInv_markTainted, taintInv_propagate, ?_⟩
  intro st body
  exact taintInv_propagate MAX_DEPTH body _ (fun n => by simp)

theorem taint_containers_in_sync_witness :
    taintInv (propagate MAX_DEPTH taintProgReadline emptyTaint).1 :=
  taint_containers_in_sync.2.1 MAX_DEPTH taintProgReadline emptyTaint
    (fun n => by simp [emptyTaint])
